/-
Verification of the tiered, strategy-driven cache subsystem of the
cursor-pulse repository (src/services: CacheService; src/utils/cacheUtils).
The definitions below are a shallow embedding of the TypeScript source:
storage effects are explicit state passing in a state-plus-exception
monad, and the storage primitives (VS Code globalState slot, file blobs,
the database state-version source) are a record of operations so that
theorems can quantify over arbitrary backend behaviour, failures included.
-/
import Mathlib

namespace Pulse

/-! ## KeyCodec: src/utils/cacheUtils.ts -/

/-- The JavaScript `String.prototype.split` with a one-character
separator: every separator occurrence cuts, empty pieces are kept, and
the empty string yields one empty piece. -/
def jsSplitAux (sep : Char) : List Char → List Char → List String
  | [], acc => [String.mk acc.reverse]
  | c :: rest, acc =>
    if c = sep then String.mk acc.reverse :: jsSplitAux sep rest []
    else jsSplitAux sep rest (c :: acc)

def jsSplit (s : String) (sep : Char) : List String :=
  jsSplitAux sep s.data []

/-- Embeds `extractParamsFromKey` (cacheUtils.ts): split the key on ":";
with more than two parts return the parts after the first two rejoined
with ":", with exactly two parts return the second, otherwise none. -/
def extractParamsFromKey (key : String) : Option String :=
  let parts := jsSplit key ':'
  if parts.length > 2 then
    some (String.intercalate ":" (parts.drop 2))
  else if parts.length = 2 then
    parts.get? 1
  else
    none

/-- Embeds `isValidCacheKey` (cacheUtils.ts): at least two colon-separated
parts, each non-empty. -/
def isValidCacheKey (key : String) : Bool :=
  let parts := jsSplit key ':'
  decide (parts.length ≥ 2) && parts.all (fun part => decide (part.length > 0))

/-! ## File-name sanitizer: CacheService.sanitizeFileName -/

/-- The characters the regex class of forbidden characters in
`sanitizeFileName` matches. -/
def forbiddenChar (c : Char) : Bool :=
  c = '<' || c = '>' || c = ':' || c = '"' || c = '/' || c = '\\' ||
  c = '|' || c = '?' || c = '*'

/-- The character class the JavaScript regex escape for whitespace matches. -/
def isJsWhitespace (c : Char) : Bool :=
  c = ' ' || c = '\t' || c = '\n' || c = '\r' ||
  c.toNat = 11 || c.toNat = 12 || c.toNat = 0xa0 || c.toNat = 0x1680 ||
  (0x2000 ≤ c.toNat && c.toNat ≤ 0x200a) ||
  c.toNat = 0x2028 || c.toNat = 0x2029 || c.toNat = 0x202f ||
  c.toNat = 0x205f || c.toNat = 0x3000 || c.toNat = 0xfeff

/-- Replace every maximal run of whitespace with a single underscore
(the second `replace` in `sanitizeFileName`). -/
def collapseWsAux : Bool → List Char → List Char
  | _, [] => []
  | prevWs, c :: rest =>
    if isJsWhitespace c then
      if prevWs then collapseWsAux true rest
      else '_' :: collapseWsAux true rest
    else c :: collapseWsAux false rest

/-- Embeds `sanitizeFileName` (database.ts): replace each forbidden
character with an underscore, then collapse each whitespace run to one
underscore. -/
def sanitizeFileName (key : String) : String :=
  let replaced := key.data.map (fun c => if forbiddenChar c then '_' else c)
  String.mk (collapseWsAux false replaced)

/-- The physical file name used by the BlobStore for a cache key. -/
def fileNameOf (key : String) : String :=
  sanitizeFileName key ++ ".json"

/-! ## Data model: src/types (CacheStrategy, CacheMetadata, CachedData) -/

inductive CacheStrategy : Type
  | TIME_BASED
  | STATE_BASED
  | PERMANENT
  | PARAM_BASED
  deriving DecidableEq

structure CacheMetadata where
  timestamp : Int
  ttl : Int
  stateVersion : Int
  strategy : CacheStrategy
  params : Option String
  deriving DecidableEq

structure CachedData (α : Type) where
  data : α
  metadata : CacheMetadata
  deriving DecidableEq

/-- The versioned container CacheService keeps in the globalState slot. -/
structure Container (α : Type) where
  version : Nat
  data : List (String × CachedData α)
  deriving DecidableEq

/-- Engine constants (database.ts, CacheService statics). -/
def CACHE_VERSION : Nat := 1

def MAX_GLOBAL_STATE_SIZE : Nat := 100 * 1024 * 1024

def DEFAULT_TTL : Int := 5 * 60 * 1000

def defaultCache {α : Type} : Container α := ⟨CACHE_VERSION, []⟩

/-! ## Association-list operations (JS object field semantics) -/

def lookupA {β : Type} (k : String) : List (String × β) → Option β
  | [] => none
  | (k1, v) :: rest => if k1 = k then some v else lookupA k rest

def insertA {β : Type} (k : String) (v : β) : List (String × β) → List (String × β)
  | [] => [(k, v)]
  | (k1, v1) :: rest =>
    if k1 = k then (k, v) :: rest else (k1, v1) :: insertA k v rest

def eraseA {β : Type} (k : String) (l : List (String × β)) : List (String × β) :=
  l.filter (fun p => !(p.1 == k))

def containsA {β : Type} (k : String) (l : List (String × β)) : Bool :=
  (lookupA k l).isSome

/-! ## Effect monad: state plus exceptions, state surviving a failure -/

def M (ε σ β : Type) : Type := σ → Except ε β × σ

def M.pure {ε σ β : Type} (a : β) : M ε σ β := fun s => (Except.ok a, s)

def M.bind {ε σ β γ : Type} (m : M ε σ β) (f : β → M ε σ γ) : M ε σ γ :=
  fun s =>
    match m s with
    | (Except.ok a, s1) => f a s1
    | (Except.error e, s1) => (Except.error e, s1)

/-- The embedding of a try/catch block. -/
def M.tryCatch {ε σ β : Type} (m : M ε σ β) (h : ε → M ε σ β) : M ε σ β :=
  fun s =>
    match m s with
    | (Except.ok a, s1) => (Except.ok a, s1)
    | (Except.error e, s1) => h e s1

/-! ## Storage backend: the primitives the engine calls.
Each may fail (raise), modelling I/O errors, quota errors and the like. -/

structure Backend (ε σ α : Type) where
  readSlot : M ε σ (Option (Container α))
  writeSlot : Container α → M ε σ Unit
  readFile : String → M ε σ (Option (CachedData α))
  writeFile : String → CachedData α → M ε σ Unit
  deleteFile : String → M ε σ Unit
  oracle : M ε σ Int

/-- Honest in-memory state: the globalState slot and the blob directory
(file name to parsed content). -/
structure CacheState (α : Type) where
  slot : Option (Container α)
  files : List (String × CachedData α)
  deriving DecidableEq

def emptyState {α : Type} : CacheState α := ⟨none, []⟩

/-- The honest backend: operations behave as VS Code globalState and a
real directory would, never failing except a delete of a missing file,
and the state-version source constantly reports `V`. -/
def honest (α : Type) (V : Int) : Backend String (CacheState α) α where
  readSlot := fun s => (Except.ok s.slot, s)
  writeSlot := fun c s => (Except.ok (), { s with slot := some c })
  readFile := fun name s => (Except.ok (lookupA name s.files), s)
  writeFile := fun name cd s => (Except.ok (), { s with files := insertA name cd s.files })
  deleteFile := fun name s =>
    if containsA name s.files then (Except.ok (), { s with files := eraseA name s.files })
    else (Except.error "FileNotFound", s)
  oracle := fun s => (Except.ok V, s)

/-! ## Engine: CacheService private helpers (database.ts) -/

variable {ε σ α : Type}

/-- Embeds `getGlobalStateCache`: read the slot with `defaultCache` as
default; when the recorded version differs from CACHE_VERSION, write the
default container back and return it, otherwise return what was read. -/
def getGlobalStateCache (b : Backend ε σ α) : M ε σ (Container α) :=
  M.bind b.readSlot (fun slot =>
    let cache := slot.getD defaultCache
    if cache.version ≠ CACHE_VERSION then
      M.bind (b.writeSlot defaultCache) (fun _ => M.pure defaultCache)
    else
      M.pure cache)

/-- Embeds `saveToGlobalState`: read-modify-write the whole container. -/
def saveToGlobalState (b : Backend ε σ α) (key : String) (cd : CachedData α) :
    M ε σ Unit :=
  M.bind (getGlobalStateCache b) (fun cache =>
    b.writeSlot { cache with data := insertA key cd cache.data })

/-- Embeds `removeFromGlobalState`: delete the key from the container
only when it is present, then write the container back. -/
def removeFromGlobalState (b : Backend ε σ α) (key : String) : M ε σ Unit :=
  M.bind (getGlobalStateCache b) (fun cache =>
    if containsA key cache.data then
      b.writeSlot { cache with data := eraseA key cache.data }
    else
      M.pure ())

/-- Embeds `getFromFileStorage`: read the sanitized file; any failure
(missing file, I/O error, parse error) is caught and becomes absent. -/
def getFromFileStorage (b : Backend ε σ α) (key : String) :
    M ε σ (Option (CachedData α)) :=
  M.tryCatch (b.readFile (fileNameOf key)) (fun _ => M.pure none)

/-- Embeds `saveToFileStorage`: write the sanitized file; failures
propagate to the caller (no try/catch in the source here). -/
def saveToFileStorage (b : Backend ε σ α) (key : String) (cd : CachedData α) :
    M ε σ Unit :=
  b.writeFile (fileNameOf key) cd

/-- Embeds `removeFromFileStorage`: delete the sanitized file, swallowing
every failure (missing file silently, others after a log line). -/
def removeFromFileStorage (b : Backend ε σ α) (key : String) : M ε σ Unit :=
  M.tryCatch (b.deleteFile (fileNameOf key)) (fun _ => M.pure ())

/-- Embeds `cleanupStorageLocation`: before a write, remove the stale
copy from the tier the new entry is not about to use; failures are
caught and only logged. -/
def cleanupStorageLocation (b : Backend ε σ α) (key : String) (newDataSize : Nat) :
    M ε σ Unit :=
  M.tryCatch
    (if newDataSize ≤ MAX_GLOBAL_STATE_SIZE then removeFromFileStorage b key
     else removeFromGlobalState b key)
    (fun _ => M.pure ())

/-- Embeds `CacheService.getCurrentStateVersion`: ask the database
service; on failure fall back to the current epoch second. -/
def getCurrentStateVersion (b : Backend ε σ α) (now : Int) : M ε σ Int :=
  M.tryCatch b.oracle (fun _ => M.pure (Int.fdiv now 1000))

/-- Embeds `isCacheValid`: the strategy table. `now` stands for the
`Date.now()` call at the head of the function. -/
def isCacheValid (b : Backend ε σ α) (now : Int) (metadata : CacheMetadata)
    (key : String) : M ε σ Bool :=
  match metadata.strategy with
  | CacheStrategy.PERMANENT => M.pure true
  | CacheStrategy.TIME_BASED =>
      M.pure (decide (now - metadata.timestamp < metadata.ttl))
  | CacheStrategy.STATE_BASED =>
      M.bind (getCurrentStateVersion b now) (fun currentStateVersion =>
        let timeValid := decide (now - metadata.timestamp < metadata.ttl)
        let stateValid := decide (currentStateVersion = metadata.stateVersion)
        M.pure (timeValid && stateValid))
  | CacheStrategy.PARAM_BASED =>
      if now - metadata.timestamp < metadata.ttl then
        M.pure (decide (extractParamsFromKey key = metadata.params))
      else
        M.pure false

/-! ## Engine: CacheService public operations -/

/-- The body of `getCachedData` inside its try block. -/
def getCachedDataCore (b : Backend ε σ α) (now : Int) (key : String) :
    M ε σ (Option α) :=
  M.bind (getGlobalStateCache b) (fun globalCache =>
    let globalEntry := lookupA key globalCache.data
    M.bind
      (match globalEntry with
       | some e =>
           M.bind (isCacheValid b now e.metadata key) (fun valid =>
             M.pure (if valid then some e.data else none))
       | none => M.pure none)
      (fun globalHit =>
        match globalHit with
        | some d => M.pure (some d)
        | none =>
          M.bind (getFromFileStorage b key) (fun fileData =>
            M.bind
              (match fileData with
               | some f =>
                   M.bind (isCacheValid b now f.metadata key) (fun valid =>
                     M.pure (if valid then some f.data else none))
               | none => M.pure none)
              (fun fileHit =>
                match fileHit with
                | some d => M.pure (some d)
                | none =>
                  M.bind
                    (if globalEntry.isSome then removeFromGlobalState b key
                     else M.pure ())
                    (fun _ =>
                      M.bind
                        (if fileData.isSome then removeFromFileStorage b key
                         else M.pure ())
                        (fun _ => M.pure none))))))

/-- Embeds `getCachedData`: the core under a catch-all that downgrades
any failure to a miss. -/
def getCachedData (b : Backend ε σ α) (now : Int) (key : String) :
    M ε σ (Option α) :=
  M.tryCatch (getCachedDataCore b now key) (fun _ => M.pure none)

/-- The body of `setCachedData` inside its try block. `sz` stands for
the byte length of the JSON serialization of the entry. -/
def setCachedDataCore (b : Backend ε σ α) (sz : CachedData α → Nat) (now : Int)
    (key : String) (data : α) (strategy : CacheStrategy) (ttl : Int)
    (params : Option String) : M ε σ Unit :=
  M.bind (getCurrentStateVersion b now) (fun stateVersion =>
    let metadata : CacheMetadata := ⟨now, ttl, stateVersion, strategy, params⟩
    let cachedData : CachedData α := ⟨data, metadata⟩
    let dataSize := sz cachedData
    M.bind (cleanupStorageLocation b key dataSize) (fun _ =>
      if dataSize ≤ MAX_GLOBAL_STATE_SIZE then
        saveToGlobalState b key cachedData
      else
        saveToFileStorage b key cachedData))

/-- Embeds `setCachedData`: the core under a catch-all that turns any
failure into a silently skipped write. -/
def setCachedData (b : Backend ε σ α) (sz : CachedData α → Nat) (now : Int)
    (key : String) (data : α) (strategy : CacheStrategy) (ttl : Int)
    (params : Option String) : M ε σ Unit :=
  M.tryCatch (setCachedDataCore b sz now key data strategy ttl params)
    (fun _ => M.pure ())

/-- The body of `debugCacheEntry` inside its try block: the log lines
carry no state, but the reads, validity evaluation and the extra
state-version query for STATE_BASED entries are kept. -/
def debugCacheEntryCore (b : Backend ε σ α) (now : Int) (key : String) :
    M ε σ Unit :=
  M.bind (getGlobalStateCache b) (fun globalCache =>
    let globalEntry := lookupA key globalCache.data
    M.bind (getFromFileStorage b key) (fun fileEntry =>
      match (match globalEntry with
             | some e => some e
             | none => fileEntry) with
      | some entry =>
          M.bind (isCacheValid b now entry.metadata key) (fun _ =>
            if entry.metadata.strategy = CacheStrategy.STATE_BASED then
              M.bind (getCurrentStateVersion b now) (fun _ => M.pure ())
            else
              M.pure ())
      | none => M.pure ()))

/-- Embeds `debugCacheEntry`: the core under a catch-all. -/
def debugCacheEntry (b : Backend ε σ α) (now : Int) (key : String) :
    M ε σ Unit :=
  M.tryCatch (debugCacheEntryCore b now key) (fun _ => M.pure ())

/-! ## Pure characterizations of the engine on the honest backend -/

/-- The container `getGlobalStateCache` returns on the honest backend. -/
def slotContainer (s : CacheState α) : Container α :=
  let c := s.slot.getD defaultCache
  if c.version = CACHE_VERSION then c else defaultCache

/-- The state after `getGlobalStateCache` on the honest backend: the
slot is reset to the default container exactly when its version
mismatches. -/
def slotAfterRead (s : CacheState α) : CacheState α :=
  let c := s.slot.getD defaultCache
  if c.version = CACHE_VERSION then s else { s with slot := some defaultCache }

/-- Whether the slot carries a matching schema version (an unset slot
counts as matching: the default is used). -/
def versionOk (s : CacheState α) : Bool :=
  (s.slot.getD defaultCache).version == CACHE_VERSION

/-- The strategy table as a pure function, used to state what
`isCacheValid` computes when the state-version source reports `V`. -/
def validPure (V now : Int) (metadata : CacheMetadata) (key : String) : Bool :=
  match metadata.strategy with
  | CacheStrategy.PERMANENT => true
  | CacheStrategy.TIME_BASED => decide (now - metadata.timestamp < metadata.ttl)
  | CacheStrategy.STATE_BASED =>
      decide (now - metadata.timestamp < metadata.ttl) &&
      decide (V = metadata.stateVersion)
  | CacheStrategy.PARAM_BASED =>
      if now - metadata.timestamp < metadata.ttl then
        decide (extractParamsFromKey key = metadata.params)
      else false

/-- The state after `removeFromGlobalState` on the honest backend. -/
def removeGSState (key : String) (s : CacheState α) : CacheState α :=
  if containsA key (slotContainer s).data then
    { s with slot := some ⟨(slotContainer s).version, eraseA key (slotContainer s).data⟩ }
  else slotAfterRead s

/-! ### Association-list lemmas -/

theorem lookupA_insertA_self {β : Type} (k : String) (v : β) (l : List (String × β)) :
    lookupA k (insertA k v l) = some v := by
  induction l with
  | nil => simp [insertA, lookupA]
  | cons hd tl ih =>
    obtain ⟨k1, v1⟩ := hd
    by_cases h : k1 = k
    · simp [insertA, h, lookupA]
    · simp [insertA, h, lookupA, ih]

theorem lookupA_eraseA_self {β : Type} (k : String) (l : List (String × β)) :
    lookupA k (eraseA k l) = none := by
  induction l with
  | nil => simp [eraseA, lookupA]
  | cons hd tl ih =>
    obtain ⟨k1, v1⟩ := hd
    by_cases h : k1 = k
    · simpa [eraseA, h] using ih
    · simpa [eraseA, h, lookupA] using ih

theorem eraseA_of_not_contains {β : Type} (k : String) (l : List (String × β))
    (h : containsA k l = false) : eraseA k l = l := by
  induction l with
  | nil => simp [eraseA]
  | cons hd tl ih =>
    obtain ⟨k1, v1⟩ := hd
    by_cases hk : k1 = k
    · simp [containsA, lookupA, hk] at h
    · simp [containsA, lookupA, hk] at h
      simp [eraseA, hk] at ih ⊢
      exact ih (by simpa [containsA] using h)

/-! ### State-shape lemmas -/

theorem slotContainer_version (s : CacheState α) :
    (slotContainer s).version = CACHE_VERSION := by
  unfold slotContainer
  by_cases h : (s.slot.getD defaultCache).version = CACHE_VERSION
  · simp [h]
  · simp only [h, if_false]
    rfl

theorem slotContainer_slotAfterRead (s : CacheState α) :
    slotContainer (slotAfterRead s) = slotContainer s := by
  unfold slotContainer slotAfterRead
  by_cases h : (s.slot.getD defaultCache).version = CACHE_VERSION
  · simp only [h, if_true]
  · simp only [h, if_false, Option.getD_some]
    rfl

theorem slotAfterRead_of_versionOk (s : CacheState α) (h : versionOk s = true) :
    slotAfterRead s = s := by
  unfold versionOk at h
  unfold slotAfterRead
  simp [beq_iff_eq] at h
  simp [h]

/-! ### Run lemmas: each private operation on the honest backend -/

theorem run_getGlobalStateCache (V : Int) (s : CacheState α) :
    getGlobalStateCache (honest α V) s = (Except.ok (slotContainer s), slotAfterRead s) := by
  unfold getGlobalStateCache honest M.bind M.pure slotContainer slotAfterRead
  by_cases h : (s.slot.getD defaultCache).version = CACHE_VERSION <;> simp [h]

theorem run_getCurrentStateVersion (V now : Int) (s : CacheState α) :
    getCurrentStateVersion (honest α V) now s = (Except.ok V, s) := rfl

theorem run_isCacheValid (V now : Int) (metadata : CacheMetadata) (key : String)
    (s : CacheState α) :
    isCacheValid (honest α V) now metadata key s =
      (Except.ok (validPure V now metadata key), s) := by
  unfold isCacheValid validPure
  cases metadata.strategy with
  | PERMANENT => rfl
  | TIME_BASED => rfl
  | STATE_BASED => rfl
  | PARAM_BASED =>
    by_cases h : now - metadata.timestamp < metadata.ttl <;> simp [h, M.pure]

theorem run_getFromFileStorage (V : Int) (key : String) (s : CacheState α) :
    getFromFileStorage (honest α V) key s =
      (Except.ok (lookupA (fileNameOf key) s.files), s) := rfl

theorem run_saveToFileStorage (V : Int) (key : String) (cd : CachedData α)
    (s : CacheState α) :
    saveToFileStorage (honest α V) key cd s =
      (Except.ok (), { s with files := insertA (fileNameOf key) cd s.files }) := rfl

theorem run_removeFromFileStorage (V : Int) (key : String) (s : CacheState α) :
    removeFromFileStorage (honest α V) key s =
      (Except.ok (), { s with files := eraseA (fileNameOf key) s.files }) := by
  unfold removeFromFileStorage honest M.tryCatch M.pure
  by_cases h : containsA (fileNameOf key) s.files
  · simp [h]
  · simp [h, eraseA_of_not_contains _ _ (by simpa using h)]

theorem run_saveToGlobalState (V : Int) (key : String) (cd : CachedData α)
    (s : CacheState α) :
    saveToGlobalState (honest α V) key cd s =
      (Except.ok (),
        { s with slot := some { slotContainer s with data := insertA key cd (slotContainer s).data } }) := by
  unfold saveToGlobalState M.bind
  rw [run_getGlobalStateCache]
  unfold honest slotAfterRead
  by_cases h : (s.slot.getD defaultCache).version = CACHE_VERSION <;> simp [h]

theorem run_removeFromGlobalState (V : Int) (key : String) (s : CacheState α) :
    removeFromGlobalState (honest α V) key s = (Except.ok (), removeGSState key s) := by
  unfold removeFromGlobalState M.bind removeGSState
  rw [run_getGlobalStateCache]
  by_cases h : containsA key (slotContainer s).data
  · unfold honest slotAfterRead
    by_cases hv : (s.slot.getD defaultCache).version = CACHE_VERSION <;> simp [h, hv]
  · simp [h, M.pure]

/-! ### Run lemmas: composite operations on the honest backend -/

/-- The state after `cleanupStorageLocation` on the honest backend. -/
def cleanupState (key : String) (n : Nat) (s : CacheState α) : CacheState α :=
  if n ≤ MAX_GLOBAL_STATE_SIZE then
    { s with files := eraseA (fileNameOf key) s.files }
  else removeGSState key s

theorem run_cleanupStorageLocation (V : Int) (key : String) (n : Nat)
    (s : CacheState α) :
    cleanupStorageLocation (honest α V) key n s = (Except.ok (), cleanupState key n s) := by
  unfold cleanupStorageLocation cleanupState M.tryCatch
  by_cases h : n ≤ MAX_GLOBAL_STATE_SIZE
  · simp [h, run_removeFromFileStorage]
  · simp [h, run_removeFromGlobalState]

/-- The entry `setCachedData` builds: written at time `now`, stamped
with the state version `V` the source reports. -/
def setEntry (V now ttl : Int) (strategy : CacheStrategy) (params : Option String)
    (data : α) : CachedData α :=
  ⟨data, ⟨now, ttl, V, strategy, params⟩⟩

/-- The state after `setCachedData` on the honest backend: stale-copy
cleanup in the other tier, then the write to the tier the serialized
size selects. -/
def setStateAfter (V : Int) (sz : CachedData α → Nat) (now : Int) (key : String)
    (data : α) (strategy : CacheStrategy) (ttl : Int) (params : Option String)
    (s : CacheState α) : CacheState α :=
  let cd := setEntry V now ttl strategy params data
  let n := sz cd
  let s1 := cleanupState key n s
  if n ≤ MAX_GLOBAL_STATE_SIZE then
    { s1 with slot := some ⟨(slotContainer s1).version, insertA key cd (slotContainer s1).data⟩ }
  else
    { s1 with files := insertA (fileNameOf key) cd s1.files }

theorem run_setCachedData (V : Int) (sz : CachedData α → Nat) (now : Int)
    (key : String) (data : α) (strategy : CacheStrategy) (ttl : Int)
    (params : Option String) (s : CacheState α) :
    setCachedData (honest α V) sz now key data strategy ttl params s =
      (Except.ok (), setStateAfter V sz now key data strategy ttl params s) := by
  unfold setCachedData setCachedDataCore M.tryCatch M.bind
  simp only [run_getCurrentStateVersion, run_cleanupStorageLocation]
  by_cases h : sz (setEntry V now ttl strategy params data) ≤ MAX_GLOBAL_STATE_SIZE
  · simp only [setEntry] at h
    simp [setStateAfter, setEntry, h, run_saveToGlobalState]
  · simp only [setEntry] at h
    simp [setStateAfter, setEntry, h, run_saveToFileStorage]

theorem run_debugCacheEntry (V now : Int) (key : String) (s : CacheState α) :
    debugCacheEntry (honest α V) now key s = (Except.ok (), slotAfterRead s) := by
  unfold debugCacheEntry debugCacheEntryCore M.tryCatch M.bind
  simp only [run_getGlobalStateCache, run_getFromFileStorage]
  cases hg : lookupA key (slotContainer s).data with
  | none =>
    cases hf : lookupA (fileNameOf key) (slotAfterRead s).files with
    | none => simp [hg, hf, M.pure]
    | some f =>
      simp only [hg, hf, run_isCacheValid]
      by_cases hs : f.metadata.strategy = CacheStrategy.STATE_BASED <;>
        simp [hs, run_getCurrentStateVersion, M.pure]
  | some e =>
    simp only [hg, run_isCacheValid]
    by_cases hs : e.metadata.strategy = CacheStrategy.STATE_BASED <;>
      simp [hs, run_getCurrentStateVersion, M.pure]

/-- The read contract `getCachedData` satisfies on the honest backend,
written out from the amended description of the lookup: read the
CompactStore container (resetting it on a schema-version mismatch); if
the entry found there is valid return its data; otherwise (entry absent
or invalid) read the BlobStore and, if the entry found there is valid,
return its data; when neither tier yields a valid entry, remove the key
from each tier in which an entry was found and report absent. -/
def getSpecAmended (V now : Int) (key : String) (s : CacheState α) :
    Option α × CacheState α :=
  let s1 := slotAfterRead s
  let globalEntry := lookupA key (slotContainer s).data
  let globalHit :=
    match globalEntry with
    | some e => if validPure V now e.metadata key then some e.data else none
    | none => none
  match globalHit with
  | some d => (some d, s1)
  | none =>
    let fileData := lookupA (fileNameOf key) s1.files
    let fileHit :=
      match fileData with
      | some f => if validPure V now f.metadata key then some f.data else none
      | none => none
    match fileHit with
    | some d => (some d, s1)
    | none =>
      let s2 := if globalEntry.isSome then removeGSState key s1 else s1
      let s3 :=
        if fileData.isSome then { s2 with files := eraseA (fileNameOf key) s2.files }
        else s2
      (none, s3)

theorem run_getCachedData (V now : Int) (key : String) (s : CacheState α) :
    getCachedData (honest α V) now key s =
      (Except.ok (getSpecAmended V now key s).1, (getSpecAmended V now key s).2) := by
  unfold getCachedData getCachedDataCore getSpecAmended M.tryCatch M.bind
  simp only [run_getGlobalStateCache]
  cases hg : lookupA key (slotContainer s).data with
  | some e =>
    simp only [run_isCacheValid]
    by_cases hv : validPure V now e.metadata key
    · simp [hg, hv, M.pure]
    · simp only [hg, hv, if_false, M.pure, eq_self_iff_true]
      simp only [run_getFromFileStorage]
      cases hf : lookupA (fileNameOf key) (slotAfterRead s).files with
      | some f =>
        simp only [run_isCacheValid]
        by_cases hw : validPure V now f.metadata key
        · simp [hf, hw, M.pure]
        · simp [hf, hw, M.pure, run_removeFromGlobalState, run_removeFromFileStorage]
      | none =>
        simp [hf, M.pure, run_removeFromGlobalState, run_removeFromFileStorage]
  | none =>
    simp only [hg, M.pure]
    simp only [run_getFromFileStorage]
    cases hf : lookupA (fileNameOf key) (slotAfterRead s).files with
    | some f =>
      simp only [run_isCacheValid]
      by_cases hw : validPure V now f.metadata key
      · simp [hf, hw, M.pure]
      · simp [hf, hw, M.pure, run_removeFromGlobalState, run_removeFromFileStorage]
    | none =>
      simp [hf, M.pure]

/-! ### Further state-shape lemmas, for the round-trip argument -/

theorem string_length_pos (p : String) : 0 < p.length ↔ p ≠ "" := by
  cases p with
  | mk data =>
    cases data with
    | nil => simp [String.length]
    | cons c cs => simp [String.length, String.ext_iff]

theorem versionOk_slotAfterRead (s : CacheState α) :
    versionOk (slotAfterRead s) = true := by
  unfold versionOk slotAfterRead
  by_cases h : (s.slot.getD defaultCache).version = CACHE_VERSION
  · rw [if_pos h]
    simp [versionOk, h]
  · rw [if_neg h]
    rfl

theorem slotContainer_set_slot (s : CacheState α) (c : Container α)
    (h : c.version = CACHE_VERSION) :
    slotContainer { s with slot := some c } = c := by
  unfold slotContainer
  simp [h]

theorem slotAfterRead_set_slot (s : CacheState α) (c : Container α)
    (h : c.version = CACHE_VERSION) :
    slotAfterRead { s with slot := some c } = { s with slot := some c } := by
  unfold slotAfterRead
  simp [h]

theorem versionOk_removeGSState (key : String) (s : CacheState α) :
    versionOk (removeGSState key s) = true := by
  unfold removeGSState
  by_cases hc : containsA key (slotContainer s).data = true
  · rw [if_pos hc]
    simp [versionOk, slotContainer_version s]
  · rw [if_neg hc]
    exact versionOk_slotAfterRead s

theorem lookupA_removeGSState (key : String) (s : CacheState α) :
    lookupA key (slotContainer (removeGSState key s)).data = none := by
  unfold removeGSState
  by_cases hc : containsA key (slotContainer s).data = true
  · rw [if_pos hc,
      slotContainer_set_slot s ⟨(slotContainer s).version, eraseA key (slotContainer s).data⟩
        (slotContainer_version s)]
    exact lookupA_eraseA_self key (slotContainer s).data
  · rw [if_neg hc, slotContainer_slotAfterRead]
    unfold containsA at hc
    revert hc
    cases lookupA key (slotContainer s).data <;> simp

/-- The entry written by `set` evaluates as valid at the write instant,
under the conditions of the amended round-trip claim. -/
theorem validPure_setEntry (V now ttl : Int) (strategy : CacheStrategy)
    (params : Option String) (key : String) (data : α)
    (h : strategy = CacheStrategy.PERMANENT ∨
      (0 < ttl ∧ (strategy = CacheStrategy.PARAM_BASED → params = extractParamsFromKey key))) :
    validPure V now (setEntry V now ttl strategy params data).metadata key = true := by
  unfold validPure setEntry
  cases strategy with
  | PERMANENT => rfl
  | TIME_BASED =>
    rcases h with h | ⟨h, _⟩
    · exact absurd h (by simp)
    · simp [Int.sub_self, h]
  | STATE_BASED =>
    rcases h with h | ⟨h, _⟩
    · exact absurd h (by simp)
    · simp [Int.sub_self, h]
  | PARAM_BASED =>
    rcases h with h | ⟨h, hp⟩
    · exact absurd h (by simp)
    · simp [Int.sub_self, h, hp rfl]

theorem files_slotAfterRead (s : CacheState α) :
    (slotAfterRead s).files = s.files := by
  unfold slotAfterRead
  by_cases h : (s.slot.getD defaultCache).version = CACHE_VERSION
  · rw [if_pos h]
  · rw [if_neg h]

theorem getSpec_fst_of_slot_hit (V now : Int) (key : String) (s : CacheState α)
    (c : Container α) (cd : CachedData α) (hver : c.version = CACHE_VERSION)
    (hlook : lookupA key c.data = some cd)
    (hvalid : validPure V now cd.metadata key = true)
    (hslot : s.slot = some c) :
    (getSpecAmended V now key s).1 = some cd.data := by
  unfold getSpecAmended slotContainer
  simp [hslot, hver, hlook, hvalid]

theorem getSpec_fst_of_file_hit (V now : Int) (key : String) (s : CacheState α)
    (cd : CachedData α)
    (hmiss : lookupA key (slotContainer s).data = none)
    (hfile : lookupA (fileNameOf key) s.files = some cd)
    (hvalid : validPure V now cd.metadata key = true) :
    (getSpecAmended V now key s).1 = some cd.data := by
  unfold getSpecAmended
  simp [hmiss, files_slotAfterRead, hfile, hvalid]

theorem getSpec_after_set (V now ttl : Int) (strategy : CacheStrategy)
    (params : Option String) (key : String) (data : α)
    (sz : CachedData α → Nat) (s : CacheState α)
    (hvalid : validPure V now (setEntry V now ttl strategy params data).metadata key = true) :
    (getSpecAmended V now key (setStateAfter V sz now key data strategy ttl params s)).1
      = some data := by
  simp only [setStateAfter]
  by_cases hn : sz (setEntry V now ttl strategy params data) ≤ MAX_GLOBAL_STATE_SIZE
  · rw [if_pos hn]
    exact getSpec_fst_of_slot_hit V now key _
      ⟨(slotContainer (cleanupState key (sz (setEntry V now ttl strategy params data)) s)).version,
        insertA key (setEntry V now ttl strategy params data)
          (slotContainer (cleanupState key (sz (setEntry V now ttl strategy params data)) s)).data⟩
      (setEntry V now ttl strategy params data)
      (slotContainer_version (cleanupState key (sz (setEntry V now ttl strategy params data)) s))
      (lookupA_insertA_self key (setEntry V now ttl strategy params data)
        (slotContainer (cleanupState key (sz (setEntry V now ttl strategy params data)) s)).data)
      hvalid rfl
  · rw [if_neg hn]
    unfold cleanupState
    rw [if_neg hn]
    exact getSpec_fst_of_file_hit V now key _ (setEntry V now ttl strategy params data)
      (lookupA_removeGSState key s)
      (lookupA_insertA_self (fileNameOf key) (setEntry V now ttl strategy params data)
        (removeGSState key s).files)
      hvalid

/-! ## The claims -/

/-- C1: for every storage backend, every failure mode included, the
public cache operations never propagate an exception to the caller:
`getCachedData` always returns an `ok` result — and returns absent
whenever its body failed — while `setCachedData` always returns `ok ()`,
the write silently skipped on failure. -/
theorem C1_no_exception_escape {ε σ α : Type} (b : Backend ε σ α)
    (sz : CachedData α → Nat) (now : Int) (key : String) (data : α)
    (strategy : CacheStrategy) (ttl : Int) (params : Option String) (s : σ) :
    (∃ v, (getCachedData b now key s).1 = Except.ok v) ∧
    (setCachedData b sz now key data strategy ttl params s).1 = Except.ok () ∧
    (∀ e s1, getCachedDataCore b now key s = (Except.error e, s1) →
      (getCachedData b now key s).1 = Except.ok none) := by
  refine ⟨?_, ?_, ?_⟩
  · unfold getCachedData M.tryCatch
    rcases hr : getCachedDataCore b now key s with ⟨r, s1⟩
    cases r with
    | ok a => exact ⟨a, by simp [hr]⟩
    | error e => exact ⟨none, by simp [hr, M.pure]⟩
  · unfold setCachedData M.tryCatch
    rcases hr : setCachedDataCore b sz now key data strategy ttl params s with ⟨r, s1⟩
    cases r with
    | ok a => cases a; simp [hr]
    | error e => simp [hr, M.pure]
  · intro e s1 h
    unfold getCachedData M.tryCatch
    simp [h, M.pure]

/-- A backend on which every storage primitive fails, for exercising the
exception paths. -/
def failB : Backend String (CacheState Unit) Unit where
  readSlot := fun s => (Except.error "io", s)
  writeSlot := fun _ s => (Except.error "io", s)
  readFile := fun _ s => (Except.error "io", s)
  writeFile := fun _ _ s => (Except.error "io", s)
  deleteFile := fun _ s => (Except.error "io", s)
  oracle := fun s => (Except.error "io", s)

theorem C1_no_exception_escape_witness :
    (getCachedData failB 0 "quota:premium" (emptyState : CacheState Unit)).1 = Except.ok none ∧
    (setCachedData failB (fun _ => 0) 0 "quota:premium" () CacheStrategy.TIME_BASED 1 none
        (emptyState : CacheState Unit)).1 = Except.ok () := by
  constructor
  · exact (C1_no_exception_escape failB (fun _ => 0) 0 "quota:premium" ()
      CacheStrategy.TIME_BASED 1 none emptyState).2.2 "io" emptyState rfl
  · exact (C1_no_exception_escape failB (fun _ => 0) 0 "quota:premium" ()
      CacheStrategy.TIME_BASED 1 none emptyState).2.1

/-- C2: the strategy evaluator follows the strategy table exactly —
PERMANENT always valid; TIME_BASED valid iff now - timestamp < ttl;
PARAM_BASED additionally requires the params extracted from the key to
equal the recorded params; STATE_BASED additionally requires the
reported state version to equal the recorded one. The first three cases
produce the same answer on every backend without touching it (so the
state-version source is consulted only for STATE_BASED). -/
theorem C2_strategy_table {ε σ α : Type} (b : Backend ε σ α) (now : Int)
    (metadata : CacheMetadata) (key : String) (s : σ) (V : Int)
    (t : CacheState α) :
    (metadata.strategy = CacheStrategy.PERMANENT →
      isCacheValid b now metadata key s = (Except.ok true, s)) ∧
    (metadata.strategy = CacheStrategy.TIME_BASED →
      isCacheValid b now metadata key s =
        (Except.ok (decide (now - metadata.timestamp < metadata.ttl)), s)) ∧
    (metadata.strategy = CacheStrategy.PARAM_BASED →
      isCacheValid b now metadata key s =
        (Except.ok (decide (now - metadata.timestamp < metadata.ttl) &&
          decide (extractParamsFromKey key = metadata.params)), s)) ∧
    (metadata.strategy = CacheStrategy.STATE_BASED →
      isCacheValid (honest α V) now metadata key t =
        (Except.ok (decide (now - metadata.timestamp < metadata.ttl) &&
          decide (V = metadata.stateVersion)), t)) := by
  refine ⟨?_, ?_, ?_, ?_⟩
  · intro h
    unfold isCacheValid
    rw [h]
    rfl
  · intro h
    unfold isCacheValid
    rw [h]
    rfl
  · intro h
    unfold isCacheValid
    rw [h]
    by_cases ht : now - metadata.timestamp < metadata.ttl <;> simp [ht, M.pure]
  · intro h
    rw [run_isCacheValid]
    unfold validPure
    rw [h]

theorem C2_strategy_table_witness :
    isCacheValid failB 50 ⟨0, 10, 0, CacheStrategy.PERMANENT, none⟩ "a:b"
      (emptyState : CacheState Unit) = (Except.ok true, emptyState) ∧
    isCacheValid failB 50 ⟨0, 10, 0, CacheStrategy.TIME_BASED, none⟩ "a:b"
      (emptyState : CacheState Unit) = (Except.ok false, emptyState) ∧
    isCacheValid failB 50 ⟨0, 100, 0, CacheStrategy.PARAM_BASED, some "b"⟩ "a:b"
      (emptyState : CacheState Unit) = (Except.ok true, emptyState) ∧
    isCacheValid (honest Unit 5) 50 ⟨0, 100, 5, CacheStrategy.STATE_BASED, none⟩ "a:b"
      (emptyState : CacheState Unit) = (Except.ok true, emptyState) := by
  refine ⟨?_, ?_, ?_, ?_⟩
  · exact (C2_strategy_table failB 50 ⟨0, 10, 0, CacheStrategy.PERMANENT, none⟩ "a:b"
      emptyState 5 emptyState).1 rfl
  · exact ((C2_strategy_table failB 50 ⟨0, 10, 0, CacheStrategy.TIME_BASED, none⟩ "a:b"
      emptyState 5 emptyState).2.1 rfl).trans (by rfl)
  · exact ((C2_strategy_table failB 50 ⟨0, 100, 0, CacheStrategy.PARAM_BASED, some "b"⟩ "a:b"
      emptyState 5 emptyState).2.2.1 rfl).trans (by rfl)
  · exact ((C2_strategy_table failB 50 ⟨0, 100, 5, CacheStrategy.STATE_BASED, none⟩ "a:b"
      emptyState 5 emptyState).2.2.2 rfl).trans (by rfl)

/-- C3 (code evidence): the per-entry threshold the source compares
against is MAX_GLOBAL_STATE_SIZE, 100 MiB, so a 150 KB payload
(serialized size 153600 bytes here) is at or under the threshold and
`setCachedData` stores it in the CompactStore container, leaving the
BlobStore untouched — not in the BlobStore as the claim states. -/
theorem C3_large_entry_lands_in_compact_store :
    150 * 1024 ≤ MAX_GLOBAL_STATE_SIZE ∧
    setCachedData (honest Unit 0) (fun _ => 153600) 0 "large-test-key" ()
        CacheStrategy.TIME_BASED 60000 none emptyState =
      (Except.ok (),
        ⟨some ⟨CACHE_VERSION,
          [("large-test-key", setEntry 0 0 60000 CacheStrategy.TIME_BASED none ())]⟩, []⟩) := by
  exact ⟨by decide, rfl⟩

/-- C4 counterexample: with strategy TIME_BASED and ttl 0 the entry is
already expired at the write instant, so `set` followed immediately by
`get` on the same key returns absent, not the value written. -/
theorem C4_roundtrip_counterexample :
    (getCachedData (honest Int 0) 1000 "a:b"
        (setCachedData (honest Int 0) (fun _ => 0) 1000 "a:b" 42
          CacheStrategy.TIME_BASED 0 none emptyState).2).1 = Except.ok none ∧
    (Except.ok none : Except String (Option Int)) ≠ Except.ok (some 42) := by
  exact ⟨rfl, by simp⟩

/-- C4 (amended): `set` followed immediately by `get` on the same key
returns the value written, in whichever tier the entry lands and from
any starting state, provided the written entry is valid at the write
instant: strategy PERMANENT, or a positive ttl together with, for
PARAM_BASED, a params argument equal to the params extracted from the
key. -/
theorem C4_roundtrip_amended {α : Type} (sz : CachedData α → Nat) (V now ttl : Int)
    (key : String) (data : α) (strategy : CacheStrategy) (params : Option String)
    (s : CacheState α)
    (h : strategy = CacheStrategy.PERMANENT ∨
      (0 < ttl ∧ (strategy = CacheStrategy.PARAM_BASED → params = extractParamsFromKey key))) :
    (setCachedData (honest α V) sz now key data strategy ttl params s).1 = Except.ok () ∧
    (getCachedData (honest α V) now key
        (setCachedData (honest α V) sz now key data strategy ttl params s).2).1
      = Except.ok (some data) := by
  rw [run_setCachedData]
  refine ⟨rfl, ?_⟩
  rw [run_getCachedData, getSpec_after_set V now ttl strategy params key data sz s
    (validPure_setEntry V now ttl strategy params key data h)]

theorem C4_roundtrip_amended_witness :
    (setCachedData (honest Int 3) (fun _ => 10) 500 "analytics:7d" 99
        CacheStrategy.PARAM_BASED 60000 (some "7d") emptyState).1 = Except.ok () ∧
    (getCachedData (honest Int 3) 500 "analytics:7d"
        (setCachedData (honest Int 3) (fun _ => 10) 500 "analytics:7d" 99
          CacheStrategy.PARAM_BASED 60000 (some "7d") emptyState).2).1
      = Except.ok (some 99) :=
  C4_roundtrip_amended (fun _ => 10) 3 500 60000 "analytics:7d" 99
    CacheStrategy.PARAM_BASED (some "7d") emptyState
    (Or.inr ⟨by decide, fun _ => by decide⟩)

/-- C5 counterexample: in a state whose CompactStore holds an expired
entry for the key while the BlobStore holds a PERMANENT one, `get`
returns the BlobStore value, whereas the claim requires absent whenever
the entry found in the CompactStore is invalid. -/
theorem C5_counterexample :
    (getCachedData (honest Int 0) 1000 "a:b"
        ⟨some ⟨1, [("a:b", ⟨7, ⟨0, 1, 0, CacheStrategy.TIME_BASED, none⟩⟩)]⟩,
         [("a_b.json", ⟨9, ⟨0, 0, 0, CacheStrategy.PERMANENT, none⟩⟩)]⟩).1
      = Except.ok (some 9) ∧
    (Except.ok (some 9) : Except String (Option Int)) ≠ Except.ok none := by
  exact ⟨rfl, by simp⟩

/-- C5 (amended): `get` reads the CompactStore first and falls through
to the BlobStore whenever the CompactStore entry is absent OR invalid;
it returns the first valid entry found, and only when neither tier
yields a valid entry does it remove the key from each tier in which an
entry was found and report absent — exactly the contract written out in
`getSpecAmended`. -/
theorem C5_get_refines_amended_contract {α : Type} (V now : Int) (key : String)
    (s : CacheState α) :
    getCachedData (honest α V) now key s =
      (Except.ok (getSpecAmended V now key s).1, (getSpecAmended V now key s).2) :=
  run_getCachedData V now key s

/-- C6: a CompactStore container whose version differs from
CACHE_VERSION is wiped: the read returns the default empty container
and resets the slot, and `get` on any key with no BlobStore copy
reports absent. -/
theorem C6_version_mismatch_wipes {α : Type} (V now : Int) (key : String)
    (s : CacheState α) (c : Container α) (h1 : s.slot = some c)
    (h2 : c.version ≠ CACHE_VERSION)
    (h3 : lookupA (fileNameOf key) s.files = none) :
    getGlobalStateCache (honest α V) s =
      (Except.ok defaultCache, { s with slot := some defaultCache }) ∧
    getCachedData (honest α V) now key s =
      (Except.ok none, { s with slot := some defaultCache }) := by
  have hsc : slotContainer s = defaultCache := by
    unfold slotContainer
    simp [h1, h2]
  have hsa : slotAfterRead s = { s with slot := some defaultCache } := by
    unfold slotAfterRead
    simp [h1, h2]
  constructor
  · rw [run_getGlobalStateCache, hsc, hsa]
  · rw [run_getCachedData]
    unfold getSpecAmended
    simp [hsc, hsa, defaultCache, lookupA, h3]

theorem C6_version_mismatch_wipes_witness :
    getGlobalStateCache (honest Unit 0)
        (⟨some ⟨2, [("k:v", ⟨(), ⟨0, 1000, 0, CacheStrategy.TIME_BASED, none⟩⟩)]⟩, []⟩ :
          CacheState Unit) =
      (Except.ok defaultCache, ⟨some defaultCache, []⟩) ∧
    getCachedData (honest Unit 0) 5 "k:v"
        (⟨some ⟨2, [("k:v", ⟨(), ⟨0, 1000, 0, CacheStrategy.TIME_BASED, none⟩⟩)]⟩, []⟩ :
          CacheState Unit) =
      (Except.ok none, ⟨some defaultCache, []⟩) :=
  C6_version_mismatch_wipes 0 5 "k:v"
    ⟨some ⟨2, [("k:v", ⟨(), ⟨0, 1000, 0, CacheStrategy.TIME_BASED, none⟩⟩)]⟩, []⟩
    ⟨2, [("k:v", ⟨(), ⟨0, 1000, 0, CacheStrategy.TIME_BASED, none⟩⟩)]⟩
    rfl (by decide) rfl

/-- C7 counterexample: on a state whose CompactStore container carries a
mismatched schema version, `debugCacheEntry` mutates the state: the
container read inside it resets the slot to the default container. -/
theorem C7_debug_mutates_on_version_mismatch :
    (debugCacheEntry (honest Unit 0) 0 "a:b" (⟨some ⟨2, []⟩, []⟩ : CacheState Unit)).2
      ≠ (⟨some ⟨2, []⟩, []⟩ : CacheState Unit) := by
  decide

/-- C7 (amended): `debugCacheEntry` never throws and its only state
effect is the CompactStore schema-version reset performed by the
underlying container read: the final state is `slotAfterRead` of the
starting state, which is the starting state itself whenever the stored
version matches. It never removes entries from either tier. -/
theorem C7_debug_effect_amended {α : Type} (V now : Int) (key : String)
    (s : CacheState α) :
    debugCacheEntry (honest α V) now key s = (Except.ok (), slotAfterRead s) ∧
    (versionOk s = true → slotAfterRead s = s) :=
  ⟨run_debugCacheEntry V now key s, slotAfterRead_of_versionOk s⟩

theorem C7_debug_effect_amended_witness :
    debugCacheEntry (honest Unit 5) 3 "a:b" (emptyState : CacheState Unit) =
      (Except.ok (), slotAfterRead emptyState) ∧
    slotAfterRead (emptyState : CacheState Unit) = emptyState :=
  ⟨(C7_debug_effect_amended 5 3 "a:b" emptyState).1,
   (C7_debug_effect_amended 5 3 "a:b" emptyState).2 (by decide)⟩

/-- A backend identical to `b` except that the state-version query
fails with `e`. -/
def withFailingOracle {ε σ α : Type} (b : Backend ε σ α) (e : ε) : Backend ε σ α :=
  { b with oracle := fun s => (Except.error e, s) }

/-- C8 counterexample: when the state-version query fails, the fallback
version is the epoch second of `now`; a STATE_BASED entry whose stored
stateVersion happens to equal that fallback is judged VALID, so the
claim that every STATE_BASED entry is judged invalid on oracle failure
is false. -/
theorem C8_counterexample :
    isCacheValid (withFailingOracle (honest Unit 7) "db-error") 5000
        ⟨5000, 10, 5, CacheStrategy.STATE_BASED, none⟩ "a:b"
        (emptyState : CacheState Unit)
      = (Except.ok true, emptyState) ∧
    (Except.ok true, (emptyState : CacheState Unit)) ≠
      ((Except.ok false, emptyState) : Except String Bool × CacheState Unit) := by
  exact ⟨rfl, by simp⟩

/-- C8 (amended): a failing state-version query is caught, never
re-raised: the engine substitutes the epoch second of `now` as the
current version, so a STATE_BASED entry is judged valid iff it is
time-valid and its stored stateVersion equals that fallback value (in
particular it is invalidated whenever the stored version differs). -/
theorem C8_oracle_failure_amended {ε σ α : Type} (b : Backend ε σ α) (e : ε)
    (now : Int) (metadata : CacheMetadata) (key : String) (s : σ)
    (h : metadata.strategy = CacheStrategy.STATE_BASED) :
    getCurrentStateVersion (withFailingOracle b e) now s =
      (Except.ok (Int.fdiv now 1000), s) ∧
    isCacheValid (withFailingOracle b e) now metadata key s =
      (Except.ok (decide (now - metadata.timestamp < metadata.ttl) &&
        decide (Int.fdiv now 1000 = metadata.stateVersion)), s) := by
  constructor
  · rfl
  · unfold isCacheValid
    rw [h]
    rfl

theorem C8_oracle_failure_amended_witness :
    getCurrentStateVersion (withFailingOracle (honest Unit 7) "db-error") 5000
        (emptyState : CacheState Unit) = (Except.ok 5, emptyState) ∧
    isCacheValid (withFailingOracle (honest Unit 7) "db-error") 5000
        ⟨5000, 10, 9, CacheStrategy.STATE_BASED, none⟩ "a:b"
        (emptyState : CacheState Unit) = (Except.ok false, emptyState) := by
  have h := C8_oracle_failure_amended (honest Unit 7) "db-error" 5000
    ⟨5000, 10, 9, CacheStrategy.STATE_BASED, none⟩ "a:b" emptyState rfl
  exact ⟨h.1.trans (by rfl), h.2.trans (by rfl)⟩

/-- C9: the key validator accepts exactly the keys whose colon-split
parts number at least two and are all non-empty; the params extractor
never throws (it is a total function) and returns the second part for
exactly two parts, the colon-rejoined remainder after the second part
for more than two, and none for fewer than two; both are pure functions
of the key alone. -/
theorem C9_keycodec_contract (key : String) :
    (isValidCacheKey key = true ↔
      (2 ≤ (jsSplit key ':').length ∧ ∀ part ∈ jsSplit key ':', part ≠ "")) ∧
    (∀ a b : String, jsSplit key ':' = [a, b] → extractParamsFromKey key = some b) ∧
    (2 < (jsSplit key ':').length →
      extractParamsFromKey key =
        some (String.intercalate ":" ((jsSplit key ':').drop 2))) ∧
    ((jsSplit key ':').length < 2 → extractParamsFromKey key = none) := by
  refine ⟨?_, ?_, ?_, ?_⟩
  · unfold isValidCacheKey
    simp only [Bool.and_eq_true, decide_eq_true_eq, List.all_eq_true]
    constructor
    · rintro ⟨h1, h2⟩
      exact ⟨h1, fun part hp => (string_length_pos part).1 (h2 part hp)⟩
    · rintro ⟨h1, h2⟩
      exact ⟨h1, fun part hp => (string_length_pos part).2 (h2 part hp)⟩
  · intro a b hab
    simp [extractParamsFromKey, hab]
  · intro h
    simp only [extractParamsFromKey]
    rw [if_pos h]
  · intro h
    have h1 : ¬((jsSplit key ':').length > 2) := by omega
    have h2 : ¬((jsSplit key ':').length = 2) := by omega
    simp [extractParamsFromKey, h1, h2]

theorem C9_keycodec_contract_witness :
    isValidCacheKey "analytics:7d" = true ∧
    extractParamsFromKey "analytics:7d" = some "7d" ∧
    extractParamsFromKey "events:7d:100:x" = some "100:x" ∧
    extractParamsFromKey "plain" = none := by
  refine ⟨?_, ?_, ?_, ?_⟩
  · exact (C9_keycodec_contract "analytics:7d").1.2 ⟨by decide, by decide⟩
  · exact (C9_keycodec_contract "analytics:7d").2.1 "analytics" "7d" (by decide)
  · exact ((C9_keycodec_contract "events:7d:100:x").2.2.1 (by decide)).trans (by decide)
  · exact (C9_keycodec_contract "plain").2.2.2 (by decide)

/-- C10: the blob file-name sanitizer is not injective — "a:b", "a?b"
and "a b" all map to the file name stem "a_b" — so a BlobStore write
under one such key is visible under the other, and a remove under one
deletes the entry stored under the other. -/
theorem C10_sanitizer_collisions :
    sanitizeFileName "a:b" = sanitizeFileName "a?b" ∧
    "a:b" ≠ "a?b" ∧
    sanitizeFileName "a b" = sanitizeFileName "a:b" ∧
    getFromFileStorage (honest Int 0) "a?b"
        (saveToFileStorage (honest Int 0) "a:b"
          ⟨5, ⟨0, 10, 0, CacheStrategy.PERMANENT, none⟩⟩ emptyState).2
      = (Except.ok (some ⟨5, ⟨0, 10, 0, CacheStrategy.PERMANENT, none⟩⟩),
         (saveToFileStorage (honest Int 0) "a:b"
           ⟨5, ⟨0, 10, 0, CacheStrategy.PERMANENT, none⟩⟩ emptyState).2) ∧
    (removeFromFileStorage (honest Int 0) "a?b"
        (saveToFileStorage (honest Int 0) "a:b"
          ⟨5, ⟨0, 10, 0, CacheStrategy.PERMANENT, none⟩⟩ emptyState).2).2.files = [] := by
  refine ⟨rfl, by decide, rfl, rfl, rfl⟩

end Pulse
